import Mathlib

/-!
# The MPRIS bridge of the renderer (`src/renderer/util/mpris.js`)

A shallow embedding of the module and the properties of its three parts:
the command proxy `MPRIS` with its handle cache `methodMap`, the private
event emitter `MPRISEmitter` fed by the `ipcRenderer.on(TAG, ...)` listener,
and the pure mapper `getTrackMeta`.

Modelling conventions.
* JavaScript values that travel over the channel are the type `Val`.
  Numbers are IEEE 754 binary64 values (`Num`): the product and the quotient
  round to nearest, ties to even, and overflow to infinity.
* The module-level state (`methodMap`, the subscriptions of `MPRISEmitter`),
  the audio elements, and the effects on the outside (`ipcRenderer.send`,
  `store.dispatch`) are the fields of one record `World`, passed explicitly.
* Every function object the module creates (a bound handle, a subscriber, a
  DOM listener) gets an identity `ref` from one counter, so two closures made
  by the same line at different times are different values.
* The `debug` calls `d(...)` only print and are left out.
-/

set_option autoImplicit false
set_option maxRecDepth 8000

namespace Mpris

/-! ## Numbers -/

/-- The length of the binary expansion of `n`, by halving at most `fuel` times. -/
def bitLengthAux : Nat → Nat → Nat
  | 0, _ => 0
  | fuel + 1, n => if n = 0 then 0 else bitLengthAux fuel (n / 2) + 1

/-- The length of the binary expansion of `n` (0 for 0). -/
def bitLength (n : Nat) : Nat :=
  bitLengthAux n n

/-- A JavaScript number: `NaN`, an infinity, or the finite value
`±m * 2 ^ e`. The operations below return finite values in the one form a
binary64 has: `m < 2 ^ 53`, `-1074 ≤ e ≤ 971`, and `2 ^ 52 ≤ m` unless
`e = -1074` (zero and the subnormal numbers). -/
inductive Num where
  | nan
  | inf (negative : Bool)
  | fin (negative : Bool) (m : Nat) (e : Int)
  deriving DecidableEq, Repr

/-- The binary64 nearest to the fraction `±n / d`, ties to even; an infinity
when the rounded value exceeds the largest binary64. -/
def Num.ofFrac (negative : Bool) (n d : Nat) : Num :=
  if d = 0 then .nan
  else if n = 0 then .fin negative 0 (-1074)
  else
    let k0 : Int := (bitLength n : Int) - (bitLength d : Int)
    let k : Int := if d * 2 ^ k0.toNat ≤ n * 2 ^ (-k0).toNat then k0 else k0 - 1
    let e1 : Int := max (k - 52) (-1074)
    let N : Nat := n * 2 ^ (-e1).toNat
    let D : Nat := d * 2 ^ e1.toNat
    let q : Nat := N / D
    let r : Nat := N % D
    let q1 : Nat := if D < 2 * r ∨ (D = 2 * r ∧ q % 2 = 1) then q + 1 else q
    let e2 : Int := if q1 = 2 ^ 53 then e1 + 1 else e1
    let q2 : Nat := if q1 = 2 ^ 53 then 2 ^ 52 else q1
    if 971 < e2 then .inf negative else .fin negative q2 e2

/-- The binary64 nearest to `±m * 2 ^ e`. -/
def Num.ofScaled (negative : Bool) (m : Nat) (e : Int) : Num :=
  Num.ofFrac negative (m * 2 ^ e.toNat) (2 ^ (-e).toNat)

/-- The number a decimal literal with the digits `n` and `k` digits after
the point denotes: `Num.ofDecimal 123 1` is `12.3`. -/
def Num.ofDecimal (n k : Nat) : Num :=
  Num.ofFrac false n (10 ^ k)

/-- The operator `*` on numbers. -/
def Num.mul : Num → Num → Num
  | .nan, _ => .nan
  | _, .nan => .nan
  | .inf s, .inf t => .inf (xor s t)
  | .inf s, .fin t n _ => if n = 0 then .nan else .inf (xor s t)
  | .fin s m _, .inf t => if m = 0 then .nan else .inf (xor s t)
  | .fin s m e, .fin t n f => Num.ofScaled (xor s t) (m * n) (e + f)

/-- The operator `/` on numbers. -/
def Num.div : Num → Num → Num
  | .nan, _ => .nan
  | _, .nan => .nan
  | .inf _, .inf _ => .nan
  | .inf s, .fin t _ _ => .inf (xor s t)
  | .fin s _ _, .inf t => .fin (xor s t) 0 (-1074)
  | .fin s m e, .fin t n f =>
    if n = 0 then (if m = 0 then .nan else .inf (xor s t))
    else Num.ofFrac (xor s t) (m * 2 ^ (e - f).toNat) (n * 2 ^ (f - e).toNat)

instance : Mul Num := ⟨Num.mul⟩

instance : Div Num := ⟨Num.div⟩

instance (n : Nat) : OfNat Num n := ⟨Num.ofFrac false n 1⟩

/-- Neither `NaN` nor an infinity. -/
def Num.isFinite : Num → Bool
  | .fin _ _ _ => true
  | _ => false

/-! ## Values -/

/-- JavaScript values that can cross the IPC channel. -/
inductive Val where
  | undefined
  | null
  | bool (b : Bool)
  | num (x : Num)
  | str (s : String)
  | arr (xs : List Val)
  | obj (fields : List (String × Val))

/-- Exceptions the module can raise. `typeError` is the engine's or the DOM's
`TypeError`; `unhandledError` is what `EventEmitter.emit('error', ...)` throws
when nobody listens for `'error'`. -/
inductive JsError where
  | typeError
  | unhandledError
  deriving DecidableEq, Repr

/-- JavaScript truthiness (`ToBoolean`): `undefined`, `null`, `false`, `0`,
`-0`, `NaN` and `''` are falsy, everything else is truthy. -/
def Val.truthy : Val → Bool
  | .undefined => false
  | .null => false
  | .bool b => b
  | .num .nan => false
  | .num (.inf _) => true
  | .num (.fin _ m _) => decide (m ≠ 0)
  | .str s => decide (s ≠ "")
  | .arr _ => true
  | .obj _ => true

/-- The expression `v || d`. -/
def jsOr (v d : Val) : Val :=
  if v.truthy then v else d

/-- Own property `key` of an object literal (`undefined` when absent);
`none` when the value is not an object. -/
def Val.prop (key : String) : Val → Option Val
  | .obj fields =>
    match fields.find? (fun kv => kv.1 == key) with
    | some kv => some kv.2
    | none => some .undefined
  | _ => none

/-- The keys of an object literal, in insertion order. -/
def Val.keys : Val → List String
  | .obj fields => fields.map Prod.fst
  | _ => []

/-! ## `getTrackMeta` -/

/-- An element of `track.artists`; a missing `name` is `Val.undefined`. -/
structure Artist where
  name : Val

/-- The object `track.album`; a missing field is `Val.undefined`. -/
structure Album where
  name : Val
  picUrl : Val

/-- A track-like record. A missing leaf field is `Val.undefined`; `album` and
`artists` are `none` when the property is missing (`undefined`), in which
case reading a property of it throws. -/
structure Track where
  id : Val
  name : Val
  artistName : Val
  artists : Option (List Artist)
  album : Option Album

/-- Reading a property of `o`: a `TypeError` when `o` is `undefined`. -/
def deref {α : Type} (o : Option α) : Except JsError α :=
  match o with
  | some a => .ok a
  | none => .error .typeError

/-- Lines 46-61: the object literal, its properties evaluated in source order. -/
def getTrackMeta (track : Track) : Except JsError Val := do
  let id := track.id
  let length := Val.num (300 * 1000000)
  let artUrl := jsOr (← deref track.album).picUrl (.str "file:///dev/null")
  let album := jsOr (← deref track.album).name (.str "未知专辑")
  let albumArtist := (← deref track.artists).map (fun ar => jsOr ar.name (.str "未知歌手"))
  let artist := jsOr track.artistName (.str "未知歌手")
  let title := jsOr track.name (.str "未知歌曲")
  return .obj [
    ("id", id),
    ("mpris:length", length),
    ("mpris:artUrl", artUrl),
    ("xesam:album", album),
    ("xesam:albumArtist", .arr albumArtist),
    ("xesam:artist", artist),
    ("xesam:title", title)]

/-- The track of the end-to-end example: no `id`, every other field given. -/
def songTrack : Track where
  id := .undefined
  name := .str "Song"
  artistName := .str "Artist"
  artists := some [⟨.str "Artist"⟩]
  album := some ⟨.str "Album", .str "http://x/img.png"⟩

/-- The track `{album: {}, artists: [{}, ..., {}]}` with `n` artists: every
leaf field is missing. -/
def bareTrack (n : Nat) : Track where
  id := .undefined
  name := .undefined
  artistName := .undefined
  artists := some (List.replicate n ⟨.undefined⟩)
  album := some ⟨.undefined, .undefined⟩

/-! ## The module state and the outside world -/

/-- Line 12: the channel tag. -/
def TAG : String := "MPRIS:IPC"

/-- One call `ipcRenderer.send(channel, ...args)`. -/
structure OutMsg where
  channel : String
  args : List Val

/-- A function object made by `senderFn.bind(this, propName)` (line 33).
`ref` is the identity of the object (two handles are the same instance
exactly when their `ref` agree), `bound` the name it was bound to. -/
structure Handle where
  ref : Nat
  bound : String
  deriving DecidableEq, Repr

/-- The code of the listeners `bindEventListener` adds to an audio element,
by the line that creates them. Each reads the element it is added to. -/
inductive DomBody where
  | durationchange
  | loadedmetadata
  | seeked
  | playing
  | pause
  | stalled
  deriving DecidableEq, Repr

/-- The native event a DOM listener is added for. -/
def DomBody.type : DomBody → String
  | .durationchange => "durationchange"
  | .loadedmetadata => "loadedmetadata"
  | .seeked => "seeked"
  | .playing => "playing"
  | .pause => "pause"
  | .stalled => "stalled"

/-- A listener on an audio element: the function object `ref` with the code
`body`. -/
structure DomListener where
  ref : Nat
  body : DomBody
  deriving DecidableEq, Repr

/-- An audio element: position and duration in seconds, and the listeners
added with `addEventListener`, in the order they were added. -/
structure AudioEl where
  currentTime : Num
  duration : Num
  listeners : List DomListener

/-- The code of the closures subscribed on `MPRISEmitter` (lines 68, 69, 88,
91 and 110-113) with the variable each captures: the audio element
`audioEl`, named by its number, or the store `store`, named by its number.
The emitter is private to the module, so these are the only subscribers it
can ever have. -/
inductive Handler where
  | quit
  | raise
  | getPosition (audioEl : Nat)
  | seek (audioEl : Nat)
  | play (store : Nat)
  | pause (store : Nat)
  | next (store : Nat)
  | prev (store : Nat)
  deriving DecidableEq, Repr

/-- The event type a closure is subscribed for. -/
def Handler.type : Handler → String
  | .quit => "quit"
  | .raise => "raise"
  | .getPosition _ => "getPosition"
  | .seek _ => "seek"
  | .play _ => "play"
  | .pause _ => "pause"
  | .next _ => "next"
  | .prev _ => "prev"

/-- A subscriber of the emitter: the function object `ref` with the code
`body`. -/
structure Listener where
  ref : Nat
  body : Handler
  deriving DecidableEq, Repr

/-- One invocation of a subscriber by the emitter, with the arguments it got. -/
structure Call where
  listener : Listener
  args : List Val

/-- Everything the module reads or writes.
* `sent`: the calls of `ipcRenderer.send`, oldest first;
* `methodMap`: the `Map` of line 16, in insertion order;
* `nextRef`: the identity the next function object gets;
* `listeners`: the subscriptions of `MPRISEmitter`, in subscription order;
* `audio`: the audio elements, by number;
* `dispatched`: the calls of `store.dispatch`, oldest first, each with the
  number of its store;
* `subscriptions`: the stores `store.subscribe(subscribeHandler)` ran on;
* `calls`: a trace of the subscriber invocations (kept for the statements
  only, no code reads it). -/
structure World where
  sent : List OutMsg
  methodMap : List (String × Handle)
  nextRef : Nat
  listeners : List Listener
  audio : Nat → AudioEl
  dispatched : List (Nat × String)
  subscriptions : List Nat
  calls : List Call

/-- An audio element nobody touched yet: position 0, no duration (`NaN`), no
listener. -/
def freshAudio : AudioEl where
  currentTime := 0
  duration := .nan
  listeners := []

/-- The state right after the module is loaded; every audio element is fresh. -/
def init : World where
  sent := []
  methodMap := []
  nextRef := 0
  listeners := []
  audio := fun _ => freshAudio
  dispatched := []
  subscriptions := []
  calls := []

/-- The result of running code that may throw: the state it left behind and
the exception, if any, that escaped. -/
structure Outcome where
  world : World
  thrown : Option JsError

/-! ## Outbound: `senderFn` and the proxy `MPRIS` -/

/-- The call `ipcRenderer.send(channel, ...args)`. -/
def ipcSend (channel : String) (args : List Val) (w : World) : World :=
  { w with sent := w.sent ++ [⟨channel, args⟩] }

/-- Lines 23-26. -/
def senderFn (type : String) (args : List Val) (w : World) : World :=
  ipcSend TAG (.str type :: args) w

/-- Calling a bound function `senderFn.bind(this, propName)` with `args`. -/
def Handle.call (fn : Handle) (args : List Val) (w : World) : World :=
  senderFn fn.bound args w

/-- The call `methodMap.set(key, fn)`: replaces the value of an existing key,
appends a new key. -/
def mapSet (m : List (String × Handle)) (key : String) (fn : Handle) :
    List (String × Handle) :=
  if (m.lookup key).isSome then
    m.map (fun kv => if kv.1 == key then (key, fn) else kv)
  else
    m ++ [(key, fn)]

/-- Lines 29-36, the `get` trap of the proxy: `methodMap.has` and
`methodMap.get` are the one lookup. -/
def MPRIS_get (propName : String) (w : World) : Handle × World :=
  match w.methodMap.lookup propName with
  | some fn => (fn, w)
  | none =>
    let fn : Handle := ⟨w.nextRef, propName⟩
    (fn, { w with methodMap := mapSet w.methodMap propName fn, nextRef := w.nextRef + 1 })

/-- The expression `MPRIS[name](...args)`: the property is read, then called. -/
def MPRIS_call (name : String) (args : List Val) (w : World) : World :=
  let r := MPRIS_get name w
  r.1.call args r.2

/-- Requests for the names `names`, one after the other. -/
def MPRIS_getAll (names : List String) (w : World) : World :=
  names.foldl (fun w name => (MPRIS_get name w).2) w

/-! ## Inbound: `MPRISEmitter` and the `ipcRenderer.on(TAG, ...)` listener -/

/-- The `i`-th actual argument of a call, `undefined` when the call has fewer. -/
def argAt (args : List Val) (i : Nat) : Val :=
  args.getD i .undefined

/-- The conversion `ToNumber` of the engine. The conversion of strings and
arrays parses text; it belongs to the engine and is the parameter
`textToNumber`. -/
def toNumber (textToNumber : Val → Num) : Val → Num
  | .undefined => .nan
  | .null => 0
  | .bool b => if b then 1 else 0
  | .num x => x
  | .obj _ => .nan
  | v => textToNumber v

/-- The assignment `audioEl.currentTime = v` on the element `el`: the DOM
attribute is a (restricted) double, so a value that converts to `NaN` or an
infinity raises a `TypeError` and leaves the element as it was. -/
def setCurrentTime (textToNumber : Val → Num) (el : Nat) (v : Val) (w : World) :
    Except JsError World :=
  if (toNumber textToNumber v).isFinite then
    .ok { w with audio :=
      Function.update w.audio el { w.audio el with currentTime := toNumber textToNumber v } }
  else
    .error .typeError

/-- The call `store.dispatch(action)` on the store `store`. -/
def storeDispatch (store : Nat) (action : String) (w : World) : World :=
  { w with dispatched := w.dispatched ++ [(store, action)] }

/-- The body of each subscriber, called with the actual arguments `args`
(`args[0]` is the source event, `args[1]` the id). -/
def Handler.run (textToNumber : Val → Num) (h : Handler) (args : List Val)
    (w : World) : Except JsError World :=
  match h with
  | .quit => .ok (ipcSend "quitApp" [] w)
  | .raise => .ok (ipcSend "focusApp" [] w)
  | .getPosition audioEl =>
    .ok (senderFn "getPosition"
      [argAt args 1, .num ((w.audio audioEl).currentTime * 1000000)] w)
  | .seek audioEl => setCurrentTime textToNumber audioEl (argAt args 2) w
  | .play store => .ok (storeDispatch store "playAudio" w)
  | .pause store => .ok (storeDispatch store "pauseAudio" w)
  | .next store => .ok (storeDispatch store "playNextTrack" w)
  | .prev store => .ok (storeDispatch store "playPreviousTrack" w)

/-- The loop of `EventEmitter.emit` over the subscribers of one type: each
is called in turn with the same arguments; an exception of a subscriber
ends the loop and escapes. -/
def runListeners (textToNumber : Val → Num) (args : List Val) :
    List Listener → World → Outcome
  | [], w => ⟨w, none⟩
  | l :: ls, w =>
    let w1 := { w with calls := w.calls ++ [⟨l, args⟩] }
    match l.body.run textToNumber args w1 with
    | .ok w2 => runListeners textToNumber args ls w2
    | .error e => ⟨w1, some e⟩

/-- The subscribers of `type`, in subscription order. -/
def listenersFor (type : String) (w : World) : List Listener :=
  w.listeners.filter (fun l => l.body.type == type)

/-- The call `MPRISEmitter.emit(type, ...args)` of Node's `EventEmitter`:
an `'error'` event nobody listens for is thrown; otherwise the subscribers
of `type` are called in subscription order. -/
def emit (textToNumber : Val → Num) (type : String) (args : List Val)
    (w : World) : Outcome :=
  if type = "error" ∧ listenersFor type w = [] then
    ⟨w, some .unhandledError⟩
  else
    runListeners textToNumber args (listenersFor type w) w

/-- Lines 18-21: the listener on the channel, called with the source event,
the type and the rest of the message; the first of the rest is `id`. -/
def ipcListener (textToNumber : Val → Num) (event : Val) (type : String)
    (rest : List Val) (w : World) : Outcome :=
  emit textToNumber type (event :: rest.headD .undefined :: rest.tail) w

/-- The call `MPRISEmitter.on(type, handler)` with a new closure `h`. -/
def emitterOn (h : Handler) (w : World) : World :=
  { w with listeners := w.listeners ++ [⟨w.nextRef, h⟩], nextRef := w.nextRef + 1 }

/-! ## The audio element and `bindEventListener` -/

/-- The call `audioEl.addEventListener(type, listener)` on the element `el`
with a new closure `body`. -/
def addEventListener (el : Nat) (body : DomBody) (w : World) : World :=
  { w with
    audio := Function.update w.audio el
      { w.audio el with listeners := (w.audio el).listeners ++ [⟨w.nextRef, body⟩] },
    nextRef := w.nextRef + 1 }

/-- The body of each DOM listener (lines 71-87), added to the element `el`. -/
def DomBody.run (body : DomBody) (el : Nat) (w : World) : World :=
  match body with
  | .durationchange => MPRIS_call "pause" [] w
  | .loadedmetadata =>
    MPRIS_call "patchMetadata"
      [.obj [("mpris:length", .num ((w.audio el).duration * 1000000))]] w
  | .seeked => MPRIS_call "seeked" [.num (w.audio el).currentTime] w
  | .playing => MPRIS_call "play" [] (MPRIS_call "rate" [.num 1] w)
  | .pause => MPRIS_call "pause" [] w
  | .stalled => MPRIS_call "pause" [] w

/-- The listeners the element `el` holds for the native event `type`, in the
order they were added. -/
def domListenersFor (el : Nat) (type : String) (w : World) : List DomListener :=
  (w.audio el).listeners.filter (fun l => l.body.type == type)

/-- The element `el` fires the native event `type`: its listeners for that
type run in the order they were added. -/
def dispatchEvent (el : Nat) (type : String) (w : World) : World :=
  (domListenersFor el type w).foldl (fun w l => l.body.run el w) w

/-- The position of the element `el` is now `t` seconds (playback or a seek
moved it). -/
def atPosition (el : Nat) (t : Num) (w : World) : World :=
  { w with audio := Function.update w.audio el { w.audio el with currentTime := t } }

/-- The duration of the element `el` is now `d` seconds (a media resource
was loaded). -/
def withDuration (el : Nat) (d : Num) (w : World) : World :=
  { w with audio := Function.update w.audio el { w.audio el with duration := d } }

/-- Lines 67-94. `audioEl` is the number of the audio element the caller
passes, `none` when the argument is missing (falsy). -/
def bindEventListener (audioEl : Option Nat) (w : World) : World :=
  let w := emitterOn .quit w
  let w := emitterOn .raise w
  match audioEl with
  | some el =>
    let w := addEventListener el .durationchange w
    let w := addEventListener el .loadedmetadata w
    let w := addEventListener el .seeked w
    let w := addEventListener el .playing w
    let w := addEventListener el .pause w
    let w := addEventListener el .stalled w
    let w := emitterOn (.getPosition el) w
    let w := emitterOn (.seek el) w
    senderFn "renderer-ready" [] w
  | none => w

/-! ## The store -/

/-- Lines 97-106. `isUpdatePlayingUrl` says whether `mutation.type` is the
constant `UPDATE_PLAYING_URL` (imported, not part of this file); `track` is
`state.playlist.list[state.playlist.index]`, `none` when that is `undefined`.
The property `MPRIS.metadata` is read before its argument is evaluated. -/
def subscribeHandler (isUpdatePlayingUrl : Bool) (track : Option Track) (w : World) :
    Outcome :=
  if isUpdatePlayingUrl then
    let r := MPRIS_get "metadata" w
    match deref track >>= getTrackMeta with
    | .ok meta => ⟨r.1.call [meta] r.2, none⟩
    | .error e => ⟨r.2, some e⟩
  else
    ⟨w, none⟩

/-- Lines 108-114, called with the store number `store`. -/
def injectStore (store : Nat) (w : World) : World :=
  let w := { w with subscriptions := w.subscriptions ++ [store] }
  let w := emitterOn (.play store) w
  let w := emitterOn (.pause store) w
  let w := emitterOn (.next store) w
  emitterOn (.prev store) w

/-! ## The invariant of the handle cache -/

/-- Every handle stored in `methodMap` is bound to the name it is stored
under. Only `MPRIS_get` writes the map, and it keeps this. -/
def CacheOk (w : World) : Prop :=
  ∀ kv ∈ w.methodMap, kv.2.bound = kv.1

/-! ## Vocabulary of the statements -/

/-- The audio element a `getPosition` closure is bound to. -/
def Handler.positionElement : Handler → Option Nat
  | .getPosition audioEl => some audioEl
  | _ => none

/-- The audio elements the `getPosition` subscribers are bound to, in
subscription order. -/
def positionElements (w : World) : List Nat :=
  w.listeners.filterMap (fun l => l.body.positionElement)

/-- The reply to `getPosition(id)` for the element `el`: tag, type, the
same `id`, and the position of `el` times 1000000. -/
def positionReply (id : Val) (audio : Nat → AudioEl) (el : Nat) : OutMsg :=
  ⟨"MPRIS:IPC", [.str "getPosition", id, .num ((audio el).currentTime * 1000000)]⟩

/-- The command `patchMetadata` with the one key `mpris:length` at `d`
times 1000000. -/
def lengthPatch (d : Num) : OutMsg :=
  ⟨"MPRIS:IPC", [.str "patchMetadata", .obj [("mpris:length", .num (d * 1000000))]]⟩

/-- The initial state after `bindEventListener(audioEl)` was called once,
with the audio element number 0. -/
def bound : World :=
  bindEventListener (some 0) init

/-- The initial state after `bindEventListener(audioEl)` was called twice
with the audio element number 0. -/
def twiceBound : World :=
  bindEventListener (some 0) (bindEventListener (some 0) init)

/-! ## Lemmas on the handle cache -/

theorem lookup_mem (m : List (String × Handle)) (key : String) (fn : Handle)
    (h : m.lookup key = some fn) : (key, fn) ∈ m := by
  induction m with
  | nil => simp at h
  | cons kv rest ih =>
    obtain ⟨k, v⟩ := kv
    by_cases hk : key = k
    · subst hk
      simp [List.lookup] at h
      simp [h]
    · have hb : (key == k) = false := by simpa using hk
      simp [List.lookup, hb] at h
      exact List.mem_cons_of_mem _ (ih h)

theorem lookup_append_some (m m2 : List (String × Handle)) (key : String) (fn : Handle)
    (h : m.lookup key = some fn) : (m ++ m2).lookup key = some fn := by
  induction m with
  | nil => simp at h
  | cons kv rest ih =>
    obtain ⟨k, v⟩ := kv
    by_cases hk : key = k
    · subst hk
      simpa [List.lookup] using h
    · have hb : (key == k) = false := by simpa using hk
      simp [List.lookup, hb] at h ⊢
      exact ih h

theorem lookup_append_none (m : List (String × Handle)) (key : String) (fn : Handle)
    (h : m.lookup key = none) : (m ++ [(key, fn)]).lookup key = some fn := by
  induction m with
  | nil => simp [List.lookup]
  | cons kv rest ih =>
    obtain ⟨k, v⟩ := kv
    by_cases hk : key = k
    · subst hk
      simp [List.lookup] at h
    · have hb : (key == k) = false := by simpa using hk
      simp only [List.lookup, hb, List.cons_append] at h ⊢
      exact ih h

theorem mapSet_of_absent (m : List (String × Handle)) (key : String) (fn : Handle)
    (h : m.lookup key = none) : mapSet m key fn = m ++ [(key, fn)] := by
  simp [mapSet, h]

theorem MPRIS_get_cached (w : World) (n : String) (fn : Handle)
    (h : w.methodMap.lookup n = some fn) : MPRIS_get n w = (fn, w) := by
  simp [MPRIS_get, h]

theorem MPRIS_get_fresh (w : World) (n : String) (h : w.methodMap.lookup n = none) :
    MPRIS_get n w =
      (⟨w.nextRef, n⟩,
        { w with methodMap := w.methodMap ++ [(n, ⟨w.nextRef, n⟩)], nextRef := w.nextRef + 1 }) := by
  simp [MPRIS_get, h, mapSet_of_absent]

/-- After a request for `n`, the cache holds the handle that was returned. -/
theorem MPRIS_get_lookup (w : World) (n : String) :
    (MPRIS_get n w).2.methodMap.lookup n = some (MPRIS_get n w).1 := by
  cases h : w.methodMap.lookup n with
  | some fn => rw [MPRIS_get_cached w n fn h]; exact h
  | none => rw [MPRIS_get_fresh w n h]; exact lookup_append_none _ _ _ h

/-- A request for any name leaves the handles already cached where they are. -/
theorem MPRIS_get_keeps (w : World) (n k : String) (fn : Handle)
    (h : w.methodMap.lookup n = some fn) :
    (MPRIS_get k w).2.methodMap.lookup n = some fn := by
  cases hk : w.methodMap.lookup k with
  | some fk => rw [MPRIS_get_cached w k fk hk]; exact h
  | none => rw [MPRIS_get_fresh w k hk]; exact lookup_append_some _ _ _ _ h

theorem MPRIS_getAll_keeps (names : List String) (w : World) (n : String) (fn : Handle)
    (h : w.methodMap.lookup n = some fn) :
    (MPRIS_getAll names w).methodMap.lookup n = some fn := by
  induction names generalizing w with
  | nil => simpa [MPRIS_getAll] using h
  | cons k rest ih =>
    have := ih (MPRIS_get k w).2 (MPRIS_get_keeps w n k fn h)
    simpa [MPRIS_getAll] using this

/-- A request changes nothing but the cache and the identity counter. -/
theorem MPRIS_get_frame (w : World) (n : String) :
    (MPRIS_get n w).2.sent = w.sent ∧ (MPRIS_get n w).2.listeners = w.listeners ∧
    (MPRIS_get n w).2.audio = w.audio ∧ (MPRIS_get n w).2.dispatched = w.dispatched ∧
    (MPRIS_get n w).2.subscriptions = w.subscriptions ∧ (MPRIS_get n w).2.calls = w.calls := by
  cases h : w.methodMap.lookup n with
  | some fn => simp [MPRIS_get_cached w n fn h]
  | none => simp [MPRIS_get_fresh w n h]

/-- In a consistent cache, the handle returned for `n` is bound to `n`. -/
theorem MPRIS_get_bound (w : World) (hw : CacheOk w) (n : String) :
    (MPRIS_get n w).1.bound = n := by
  cases h : w.methodMap.lookup n with
  | some fn =>
    rw [MPRIS_get_cached w n fn h]
    exact hw (n, fn) (lookup_mem _ _ _ h)
  | none => rw [MPRIS_get_fresh w n h]

theorem CacheOk_init : CacheOk init := by
  simp [CacheOk, init]

theorem CacheOk_MPRIS_get (w : World) (hw : CacheOk w) (n : String) :
    CacheOk (MPRIS_get n w).2 := by
  cases h : w.methodMap.lookup n with
  | some fn => rw [MPRIS_get_cached w n fn h]; exact hw
  | none =>
    rw [MPRIS_get_fresh w n h]
    intro kv hkv
    simp only [List.mem_append, List.mem_singleton] at hkv
    rcases hkv with hkv | hkv
    · exact hw kv hkv
    · subst hkv; rfl

/-- With a consistent cache, `MPRIS[n](...args)` is the request for `n`
followed by one `ipcRenderer.send(TAG, n, ...args)`. -/
theorem MPRIS_call_eq (w : World) (hw : CacheOk w) (n : String) (args : List Val) :
    MPRIS_call n args w = ipcSend TAG (.str n :: args) (MPRIS_get n w).2 := by
  simp [MPRIS_call, Handle.call, senderFn, MPRIS_get_bound w hw n]

theorem CacheOk_MPRIS_call (w : World) (hw : CacheOk w) (n : String) (args : List Val) :
    CacheOk (MPRIS_call n args w) := by
  rw [MPRIS_call_eq w hw]
  exact CacheOk_MPRIS_get w hw n

/-- With a consistent cache, `MPRIS[n](...args)` appends its one message and
leaves the audio elements alone. -/
theorem MPRIS_call_frame (w : World) (hw : CacheOk w) (n : String) (args : List Val) :
    (MPRIS_call n args w).sent = w.sent ++ [⟨"MPRIS:IPC", .str n :: args⟩] ∧
    (MPRIS_call n args w).audio = w.audio := by
  rw [MPRIS_call_eq w hw]
  have hf := MPRIS_get_frame w n
  exact ⟨by simp [ipcSend, TAG, hf.1], by simp [ipcSend, hf.2.2.1]⟩

theorem CacheOk_of_methodMap (w w2 : World) (hw : CacheOk w)
    (h : w2.methodMap = w.methodMap) : CacheOk w2 := by
  intro kv hkv
  rw [h] at hkv
  exact hw kv hkv

theorem CacheOk_bindEventListener (audioEl : Option Nat) (w : World) (hw : CacheOk w) :
    CacheOk (bindEventListener audioEl w) := by
  refine CacheOk_of_methodMap w _ hw ?_
  cases audioEl <;>
    simp [bindEventListener, emitterOn, addEventListener, senderFn, ipcSend]

theorem CacheOk_injectStore (store : Nat) (w : World) (hw : CacheOk w) :
    CacheOk (injectStore store w) :=
  CacheOk_of_methodMap w _ hw (by simp [injectStore, emitterOn])

theorem CacheOk_DomBody_run (body : DomBody) (el : Nat) (w : World) (hw : CacheOk w) :
    CacheOk (body.run el w) := by
  cases body <;> simp only [DomBody.run]
  case playing => exact CacheOk_MPRIS_call _ (CacheOk_MPRIS_call _ hw _ _) _ _
  all_goals exact CacheOk_MPRIS_call _ hw _ _

theorem CacheOk_dispatchEvent (el : Nat) (type : String) (w : World) (hw : CacheOk w) :
    CacheOk (dispatchEvent el type w) := by
  have key : ∀ (ls : List DomListener) (w : World), CacheOk w →
      CacheOk (ls.foldl (fun w l => l.body.run el w) w) := by
    intro ls
    induction ls with
    | nil => intro w hw; exact hw
    | cons l rest ih => intro w hw; exact ih _ (CacheOk_DomBody_run l.body el w hw)
  exact key _ w hw

theorem CacheOk_subscribeHandler (isUpdatePlayingUrl : Bool) (track : Option Track)
    (w : World) (hw : CacheOk w) :
    CacheOk (subscribeHandler isUpdatePlayingUrl track w).world := by
  cases isUpdatePlayingUrl
  · exact hw
  · have hg := CacheOk_MPRIS_get w hw "metadata"
    simp only [subscribeHandler, if_true]
    cases deref track >>= getTrackMeta with
    | error e => exact hg
    | ok meta => exact CacheOk_of_methodMap _ _ hg (by simp [Handle.call, senderFn, ipcSend])

/-! ## Lemmas on numbers -/

/-- The literal `300 * 1e6` is the number 300000000. -/
theorem default_length : (300 : Num) * 1000000 = 300000000 := by
  decide

/-- The product is rounded like the engine rounds it: `1.001 * 1e6` is
`1000999.9999999999`, not 1001000, while `12.3 * 1e6` is 12300000 and
`180.5 * 1e6` is 180500000. -/
theorem product_is_rounded :
    Num.ofDecimal 1001 3 * 1000000 = Num.ofDecimal 10009999999999999 10 ∧
    Num.ofDecimal 1001 3 * 1000000 ≠ 1001000 ∧
    Num.ofDecimal 123 1 * 1000000 = 12300000 ∧
    Num.ofDecimal 1805 1 * 1000000 = 180500000 := by
  decide

/-! ## The metadata mapper -/

/-- C5. For a track whose album and artists are present, `getTrackMeta`
returns the dictionary with exactly the seven keys `id`, `mpris:length`,
`mpris:artUrl`, `xesam:album`, `xesam:albumArtist`, `xesam:artist`,
`xesam:title`, in this order and no other: `id` is the track's id, the length
is 300000000, and the art URL, album name, artist name and title are the
track's value when it is set (truthy: not `undefined`, `null` or `''`) and
the fixed placeholder otherwise, each on its own; the album artists are the
artists mapped one by one, same length and order, to the name when set and
the placeholder otherwise. The function only builds this value: the track
itself is untouched. -/
theorem getTrackMeta_spec (track : Track) (album : Album) (artists : List Artist)
    (halbum : track.album = some album) (hartists : track.artists = some artists) :
    ∃ meta : Val, getTrackMeta track = .ok meta ∧
      meta.keys = ["id", "mpris:length", "mpris:artUrl", "xesam:album",
        "xesam:albumArtist", "xesam:artist", "xesam:title"] ∧
      meta.prop "id" = some track.id ∧
      meta.prop "mpris:length" = some (.num 300000000) ∧
      meta.prop "mpris:artUrl" =
        some (if album.picUrl.truthy then album.picUrl else .str "file:///dev/null") ∧
      meta.prop "xesam:album" =
        some (if album.name.truthy then album.name else .str "未知专辑") ∧
      meta.prop "xesam:artist" =
        some (if track.artistName.truthy then track.artistName else .str "未知歌手") ∧
      meta.prop "xesam:title" =
        some (if track.name.truthy then track.name else .str "未知歌曲") ∧
      ∃ names : List Val, meta.prop "xesam:albumArtist" = some (.arr names) ∧
        names.length = artists.length ∧
        ∀ (i : Nat) (hi : i < artists.length) (hn : i < names.length),
          names.get ⟨i, hn⟩ =
            if (artists.get ⟨i, hi⟩).name.truthy then (artists.get ⟨i, hi⟩).name
            else .str "未知歌手" := by
  refine ⟨.obj [
      ("id", track.id),
      ("mpris:length", .num 300000000),
      ("mpris:artUrl", jsOr album.picUrl (.str "file:///dev/null")),
      ("xesam:album", jsOr album.name (.str "未知专辑")),
      ("xesam:albumArtist", .arr (artists.map (fun ar => jsOr ar.name (.str "未知歌手")))),
      ("xesam:artist", jsOr track.artistName (.str "未知歌手")),
      ("xesam:title", jsOr track.name (.str "未知歌曲"))], ?_, ?_⟩
  · simp only [getTrackMeta, halbum, hartists, deref, bind, Except.bind, pure, Except.pure,
      default_length]
  · refine ⟨rfl, rfl, rfl, rfl, rfl, rfl, rfl, _, rfl, ?_, ?_⟩
    · simp
    · intro i hi hn
      simp [jsOr]

/-- The end-to-end example of C5: the track `songTrack` (album and artists
present) maps to title `Song`, artist `Artist`, album `Album`, art URL
`http://x/img.png` and length 300000000, under exactly the seven keys. -/
theorem getTrackMeta_spec_witness :
    songTrack.album = some ⟨.str "Album", .str "http://x/img.png"⟩ ∧
    songTrack.artists = some [⟨.str "Artist"⟩] ∧
    ∃ meta : Val, getTrackMeta songTrack = .ok meta ∧
      meta.keys = ["id", "mpris:length", "mpris:artUrl", "xesam:album",
        "xesam:albumArtist", "xesam:artist", "xesam:title"] ∧
      meta.prop "xesam:title" = some (.str "Song") ∧
      meta.prop "xesam:artist" = some (.str "Artist") ∧
      meta.prop "xesam:album" = some (.str "Album") ∧
      meta.prop "mpris:artUrl" = some (.str "http://x/img.png") ∧
      meta.prop "mpris:length" = some (.num 300000000) := by
  obtain ⟨meta, hmeta, hkeys, -, hlength, hart, halbum, hartist, htitle, -⟩ :=
    getTrackMeta_spec songTrack ⟨.str "Album", .str "http://x/img.png"⟩ [⟨.str "Artist"⟩] rfl rfl
  refine ⟨rfl, rfl, meta, hmeta, hkeys, ?_, ?_, ?_, ?_, hlength⟩
  · simpa [songTrack, Val.truthy] using htitle
  · simpa [songTrack, Val.truthy] using hartist
  · simpa [Val.truthy] using halbum
  · simpa [Val.truthy] using hart

/-- C6, as the claim states it, fails: a record with no album, and a record
with no artists, make `getTrackMeta` throw a `TypeError`. -/
theorem getTrackMeta_throws_without_album_or_artists :
    getTrackMeta { songTrack with album := none } = .error .typeError ∧
    getTrackMeta { songTrack with artists := none } = .error .typeError := by
  constructor <;> rfl

/-- C6, amended. `getTrackMeta` returns a dictionary exactly for the tracks
that have an album and an artists list, whatever leaf fields (`id`, `name`,
`artistName`, `album.name`, `album.picUrl`, `artists[i].name`) are missing;
for every other track it throws a `TypeError`. The track with an empty album
object, `n` empty artist objects and no other field maps to the defaults. -/
theorem getTrackMeta_returns_iff (track : Track) (n : Nat) :
    ((∃ meta : Val, getTrackMeta track = .ok meta) ↔
      (track.album.isSome = true ∧ track.artists.isSome = true)) ∧
    ((∀ meta : Val, getTrackMeta track ≠ .ok meta) ↔
      getTrackMeta track = .error .typeError) ∧
    getTrackMeta (bareTrack n) = .ok (.obj [
      ("id", .undefined),
      ("mpris:length", .num 300000000),
      ("mpris:artUrl", .str "file:///dev/null"),
      ("xesam:album", .str "未知专辑"),
      ("xesam:albumArtist", .arr (List.replicate n (.str "未知歌手"))),
      ("xesam:artist", .str "未知歌手"),
      ("xesam:title", .str "未知歌曲")]) := by
  refine ⟨?_, ?_, ?_⟩
  · obtain ⟨id, name, artistName, artists, album⟩ := track
    cases album <;> cases artists <;>
      simp [getTrackMeta, deref, bind, Except.bind, pure, Except.pure]
  · obtain ⟨id, name, artistName, artists, album⟩ := track
    cases album <;> cases artists <;>
      simp [getTrackMeta, deref, bind, Except.bind, pure, Except.pure]
  · simp [getTrackMeta, bareTrack, deref, jsOr, Val.truthy, bind, Except.bind, pure,
      Except.pure, default_length]

/-! ## The command proxy -/

/-- C1. With the cache in its invariant, the handle obtained from `MPRIS`
for a name `n`, called with the arguments `args` in any later state `w2`,
makes exactly one `ipcRenderer.send`: the message is appended to what was
sent, carries the tag `MPRIS:IPC`, then `n`, then `args` in the same order,
and nothing else of the state changes, in particular no subscriber of the
emitter is invoked. Obtaining the handle sends nothing and invokes nobody. -/
theorem handle_call_sends_exactly_one (w : World) (hw : CacheOk w) (n : String)
    (args : List Val) (w2 : World) :
    (MPRIS_get n w).1.call args w2 =
        { w2 with sent := w2.sent ++ [⟨"MPRIS:IPC", .str n :: args⟩] } ∧
      (MPRIS_get n w).2.sent = w.sent ∧
      (MPRIS_get n w).2.calls = w.calls ∧
      (MPRIS_call n args w).sent = w.sent ++ [⟨"MPRIS:IPC", .str n :: args⟩] ∧
      (MPRIS_call n args w).calls = w.calls ∧
      (MPRIS_call n args w).listeners = w.listeners := by
  have hb := MPRIS_get_bound w hw n
  have hf := MPRIS_get_frame w n
  refine ⟨?_, hf.1, hf.2.2.2.2.2, ?_, ?_, ?_⟩
  · simp [Handle.call, senderFn, ipcSend, TAG, hb]
  · simp [MPRIS_call_eq w hw, ipcSend, TAG, hf.1]
  · simp [MPRIS_call_eq w hw, ipcSend, hf.2.2.2.2.2]
  · simp [MPRIS_call_eq w hw, ipcSend, hf.2.1]

/-- An instance of C1: in the initial state, `MPRIS.rate(1)` sends the one
message `('MPRIS:IPC', 'rate', 1)`. -/
theorem handle_call_sends_exactly_one_witness :
    CacheOk init ∧
    (MPRIS_call "rate" [.num 1] init).sent = [⟨"MPRIS:IPC", [.str "rate", .num 1]⟩] ∧
    (MPRIS_call "rate" [.num 1] init).calls = [] :=
  have h := handle_call_sends_exactly_one init CacheOk_init "rate" [.num 1] init
  ⟨CacheOk_init, h.2.2.2.1, h.2.2.2.2.1⟩

/-- C3. A request for the name `n` returns one handle and leaves it in
`methodMap`: when `n` was not cached, the request makes one new function
object bound to `n` and appends it to the cache under `n`; when it was
cached, the cache and the object counter stay as they are. Every later
request for the same name, directly after or after requests `between` for
any names, returns that same instance and changes nothing. -/
theorem MPRIS_get_same_instance (w : World) (n : String) (between : List String) :
    (MPRIS_get n w).2.methodMap =
        (if (w.methodMap.lookup n).isSome then w.methodMap
         else w.methodMap ++ [(n, (MPRIS_get n w).1)]) ∧
      (MPRIS_get n w).2.nextRef =
        (if (w.methodMap.lookup n).isSome then w.nextRef else w.nextRef + 1) ∧
      ((w.methodMap.lookup n).isSome = false → (MPRIS_get n w).1 = ⟨w.nextRef, n⟩) ∧
      MPRIS_get n (MPRIS_get n w).2 = ((MPRIS_get n w).1, (MPRIS_get n w).2) ∧
      MPRIS_get n (MPRIS_getAll between (MPRIS_get n w).2) =
        ((MPRIS_get n w).1, MPRIS_getAll between (MPRIS_get n w).2) := by
  refine ⟨?_, ?_, ?_, ?_, ?_⟩
  · cases h : w.methodMap.lookup n with
    | some fn => simp [MPRIS_get_cached w n fn h]
    | none => simp [MPRIS_get_fresh w n h]
  · cases h : w.methodMap.lookup n with
    | some fn => simp [MPRIS_get_cached w n fn h]
    | none => simp [MPRIS_get_fresh w n h]
  · intro h
    cases h2 : w.methodMap.lookup n with
    | some fn => simp [h2] at h
    | none => simp [MPRIS_get_fresh w n h2]
  · exact MPRIS_get_cached _ n _ (MPRIS_get_lookup w n)
  · exact MPRIS_get_cached _ n _ (MPRIS_getAll_keeps between _ n _ (MPRIS_get_lookup w n))

/-- An instance of C3: from the initial state, the first request for `play`
creates handle number 0, and a request for `play` after requests for `pause`
and `play` again returns handle number 0, not a new one. -/
theorem MPRIS_get_same_instance_witness :
    (init.methodMap.lookup "play").isSome = false ∧
    (MPRIS_get "play" init).1 = ⟨0, "play"⟩ ∧
    (MPRIS_get "play"
      (MPRIS_getAll ["pause", "play"] (MPRIS_get "play" init).2)).1 = ⟨0, "play"⟩ := by
  have h := MPRIS_get_same_instance init "play" ["pause", "play"]
  have h0 : (MPRIS_get "play" init).1 = ⟨0, "play"⟩ := h.2.2.1 rfl
  refine ⟨rfl, h0, ?_⟩
  rw [h.2.2.2.2, h0]

/-! ## Lemmas on the emitter -/

/-- A subscriber that returns has touched neither the trace, nor the
subscriptions, nor the handle cache. -/
theorem Handler.run_frame (textToNumber : Val → Num) (h : Handler) (args : List Val)
    (w w2 : World) (hr : h.run textToNumber args w = .ok w2) :
    w2.calls = w.calls ∧ w2.listeners = w.listeners ∧ w2.methodMap = w.methodMap := by
  cases h <;>
    simp only [Handler.run, ipcSend, senderFn, storeDispatch, setCurrentTime,
      Except.ok.injEq] at hr
  case seek el =>
    split at hr
    · simp only [Except.ok.injEq] at hr
      subst hr
      exact ⟨rfl, rfl, rfl⟩
    · simp at hr
  all_goals subst hr; exact ⟨rfl, rfl, rfl⟩

/-- Only a `seek` subscriber can throw, and only on a position that does
not convert to a finite number. -/
theorem Handler.run_ok (textToNumber : Val → Num) (h : Handler) (args : List Val)
    (w : World)
    (hs : ∀ el, h = .seek el → (toNumber textToNumber (argAt args 2)).isFinite = true) :
    ∃ w2, h.run textToNumber args w = .ok w2 := by
  cases h
  case seek el =>
    have hfin := hs el rfl
    refine ⟨atPosition el (toNumber textToNumber (argAt args 2)) w, ?_⟩
    simp only [Handler.run, setCurrentTime, hfin, if_true, atPosition]
  all_goals exact ⟨_, rfl⟩

/-- A `seek` subscriber throws a `TypeError` on a position that does not
convert to a finite number. -/
theorem Handler.run_seek_error (textToNumber : Val → Num) (el : Nat) (args : List Val)
    (w : World) (hbad : (toNumber textToNumber (argAt args 2)).isFinite = false) :
    (Handler.seek el).run textToNumber args w = .error .typeError := by
  simp [Handler.run, setCurrentTime, hbad]

/-- A closure subscribed for `seek` is a `seek` closure. -/
theorem Handler.type_seek (h : Handler) (ht : h.type = "seek") : ∃ el, h = .seek el := by
  cases h
  case seek el => exact ⟨el, rfl⟩
  all_goals simp [Handler.type] at ht

/-- A closure subscribed for `getPosition` is a `getPosition` closure. -/
theorem Handler.type_getPosition (h : Handler) (ht : h.type = "getPosition") :
    ∃ el, h = .getPosition el := by
  cases h
  case getPosition el => exact ⟨el, rfl⟩
  all_goals simp [Handler.type] at ht

theorem mem_listenersFor (T : String) (w : World) (l : Listener)
    (h : l ∈ listenersFor T w) : l.body.type = T := by
  simp only [listenersFor, List.mem_filter, beq_iff_eq] at h
  exact h.2

/-- When no subscriber in the loop throws, every one of them is called, in
order, each once with the same arguments, and nothing escapes. -/
theorem runListeners_all (textToNumber : Val → Num) (args : List Val)
    (ls : List Listener) (w : World)
    (hseek : ∀ l ∈ ls, ∀ el, l.body = .seek el →
      (toNumber textToNumber (argAt args 2)).isFinite = true) :
    (runListeners textToNumber args ls w).world.calls =
        w.calls ++ ls.map (fun l => Call.mk l args) ∧
    (runListeners textToNumber args ls w).thrown = none := by
  induction ls generalizing w with
  | nil => simp [runListeners]
  | cons l rest ih =>
    obtain ⟨w2, hr⟩ := Handler.run_ok textToNumber l.body args
      { w with calls := w.calls ++ [⟨l, args⟩] }
      (fun el hel => hseek l (by simp) el hel)
    have hf := (Handler.run_frame textToNumber l.body args _ w2 hr).1
    have hrest := ih w2 (fun l2 hl2 => hseek l2 (List.mem_cons_of_mem _ hl2))
    simp only [runListeners, hr]
    refine ⟨?_, hrest.2⟩
    rw [hrest.1, hf]
    simp

theorem runListeners_methodMap (textToNumber : Val → Num) (args : List Val)
    (ls : List Listener) (w : World) :
    (runListeners textToNumber args ls w).world.methodMap = w.methodMap := by
  induction ls generalizing w with
  | nil => rfl
  | cons l rest ih =>
    cases hr : l.body.run textToNumber args { w with calls := w.calls ++ [⟨l, args⟩] } with
    | error e => simp only [runListeners, hr]
    | ok w2 =>
      simp only [runListeners, hr]
      rw [ih w2, (Handler.run_frame textToNumber l.body args _ w2 hr).2.2]

/-- A delivery keeps the invariant of the cache, whether it throws or not. -/
theorem CacheOk_ipcListener (textToNumber : Val → Num) (event : Val) (type : String)
    (rest : List Val) (w : World) (hw : CacheOk w) :
    CacheOk (ipcListener textToNumber event type rest w).world := by
  refine CacheOk_of_methodMap w _ hw ?_
  simp only [ipcListener, emit]
  split
  · rfl
  · exact runListeners_methodMap _ _ _ _

/-- No subscriber is ever registered for `'error'`. -/
theorem listenersFor_error (w : World) : listenersFor "error" w = [] := by
  simp only [listenersFor, List.filter_eq_nil_iff]
  intro l _
  obtain ⟨ref, body⟩ := l
  cases body <;> simp [Handler.type]

/-- The loop over `getPosition` subscribers sends one reply each, in order,
with the position of the element each is bound to; it moves no element and
throws nothing. -/
theorem runListeners_getPosition (textToNumber : Val → Num) (args : List Val)
    (ls : List Listener) (w : World)
    (hall : ∀ l ∈ ls, l.body.type = "getPosition") :
    (runListeners textToNumber args ls w).world.sent =
        w.sent ++ (ls.filterMap (fun l => l.body.positionElement)).map
          (positionReply (argAt args 1) w.audio) ∧
    (runListeners textToNumber args ls w).world.audio = w.audio ∧
    (runListeners textToNumber args ls w).thrown = none := by
  induction ls generalizing w with
  | nil => simp [runListeners]
  | cons l rest ih =>
    obtain ⟨el, hel⟩ := Handler.type_getPosition l.body (hall l (by simp))
    have hrest := ih
      (senderFn "getPosition" [argAt args 1, .num ((w.audio el).currentTime * 1000000)]
        { w with calls := w.calls ++ [⟨l, args⟩] })
      (fun l2 hl2 => hall l2 (List.mem_cons_of_mem _ hl2))
    simp only [runListeners, hel, Handler.run]
    refine ⟨?_, hrest.2.1, hrest.2.2⟩
    rw [hrest.1]
    simp [senderFn, ipcSend, TAG, positionReply, Handler.positionElement, hel]

/-- Only the `getPosition` subscribers have a position element. -/
theorem positionElements_eq (w : World) :
    positionElements w =
      (listenersFor "getPosition" w).filterMap (fun l => l.body.positionElement) := by
  have hnone : ∀ l : Listener, (l.body.type == "getPosition") = false →
      l.body.positionElement = none := by
    intro l hl
    obtain ⟨ref, body⟩ := l
    cases body <;> simp [Handler.type, Handler.positionElement] at hl ⊢
  simp only [positionElements, listenersFor]
  induction w.listeners with
  | nil => rfl
  | cons l rest ih =>
    cases hp : l.body.type == "getPosition" with
    | true => simp only [List.filter_cons, hp, if_true, List.filterMap_cons, ih]
    | false =>
      simp only [List.filter_cons, hp, List.filterMap_cons, hnone l hp, ih]
      simp

/-- Binding an audio element appends the four subscribers `quit`, `raise`,
`getPosition`, `seek` and, on the element, the six DOM listeners; it sends
`renderer-ready`, moves no element, and leaves the cache and the trace
alone. -/
theorem bindEventListener_some (el : Nat) (w : World) :
    (bindEventListener (some el) w).listeners = w.listeners ++
      [⟨w.nextRef, .quit⟩, ⟨w.nextRef + 1, .raise⟩,
       ⟨w.nextRef + 8, .getPosition el⟩, ⟨w.nextRef + 9, .seek el⟩] ∧
    ((bindEventListener (some el) w).audio el).listeners = (w.audio el).listeners ++
      [⟨w.nextRef + 2, .durationchange⟩, ⟨w.nextRef + 3, .loadedmetadata⟩,
       ⟨w.nextRef + 4, .seeked⟩, ⟨w.nextRef + 5, .playing⟩,
       ⟨w.nextRef + 6, .pause⟩, ⟨w.nextRef + 7, .stalled⟩] ∧
    (bindEventListener (some el) w).sent = w.sent ++ [⟨"MPRIS:IPC", [.str "renderer-ready"]⟩] ∧
    (bindEventListener (some el) w).methodMap = w.methodMap ∧
    (bindEventListener (some el) w).calls = w.calls := by
  simp [bindEventListener, emitterOn, addEventListener, senderFn, ipcSend, TAG]

/-- A listener added for `loadedmetadata` is the closure of line 77. -/
theorem DomBody.type_loadedmetadata (body : DomBody) (ht : body.type = "loadedmetadata") :
    body = .loadedmetadata := by
  cases body <;> simp [DomBody.type] at ht ⊢

/-- The `loadedmetadata` listeners of an element, run one after the other,
send one `patchMetadata` each, all with the element's duration times
1000000. -/
theorem foldl_loadedmetadata (el : Nat) (ls : List DomListener) (w : World)
    (hw : CacheOk w) (hall : ∀ l ∈ ls, l.body = .loadedmetadata) :
    (ls.foldl (fun w l => l.body.run el w) w).sent =
      w.sent ++ List.replicate ls.length (lengthPatch (w.audio el).duration) := by
  induction ls generalizing w with
  | nil => simp
  | cons l rest ih =>
    have hl := hall l (by simp)
    have hf := MPRIS_call_frame w hw "patchMetadata"
      [.obj [("mpris:length", .num ((w.audio el).duration * 1000000))]]
    have hrest := ih
      (MPRIS_call "patchMetadata"
        [.obj [("mpris:length", .num ((w.audio el).duration * 1000000))]] w)
      (CacheOk_MPRIS_call w hw _ _)
      (fun l2 hl2 => hall l2 (List.mem_cons_of_mem _ hl2))
    have hstep : l.body.run el w = MPRIS_call "patchMetadata"
        [.obj [("mpris:length", .num ((w.audio el).duration * 1000000))]] w := by
      rw [hl]
      rfl
    rw [List.foldl_cons, hstep, hrest, hf.1, hf.2]
    simp [lengthPatch, List.replicate_succ]

/-! ## The event router -/

/-- C2, as the claim states it, fails: with two `seek` subscribers (the
binder ran twice) a `seek` message whose position is an object makes the
first subscriber throw a `TypeError`; the emitter stops there, and the
second subscriber, the function object 19, is not invoked at all. -/
theorem second_seek_subscriber_not_invoked :
    listenersFor "seek" twiceBound = [⟨9, .seek 0⟩, ⟨19, .seek 0⟩] ∧
    (ipcListener (fun _ => .nan) (.obj []) "seek" [.num 7, .obj [], .undefined]
      twiceBound).world.calls = [⟨⟨9, .seek 0⟩, [.obj [], .num 7, .obj [], .undefined]⟩] ∧
    (ipcListener (fun _ => .nan) (.obj []) "seek" [.num 7, .obj [], .undefined]
      twiceBound).thrown = some .typeError := by
  refine ⟨by decide, rfl, rfl⟩

/-- C2, amended. Delivering a message of type `T` with arguments
`(id, a, b)` invokes the subscribers of `T` in subscription order, each
exactly once and each with the source event followed by `id`, `a`, `b`, and
throws nothing, with two exceptions. When `T` is `seek` and the position `a`
does not convert to a finite number, only the first subscriber of `seek` is
invoked (once, with the same arguments), its `TypeError` escapes, and the
subscribers after it are not invoked. When `T` is `error`, which has no
subscriber, nobody is invoked and the emitter's unhandled-error exception
escapes. The trace names each subscriber by its function object, so the
order of two closures of the same line is part of the statement. -/
theorem ipcListener_invokes_in_order (textToNumber : Val → Num) (w : World)
    (event : Val) (T : String) (id a b : Val) :
    (ipcListener textToNumber event T [id, a, b] w).world.calls =
      w.calls ++
        ((if T = "seek" ∧ (toNumber textToNumber a).isFinite = false
          then (listenersFor T w).take 1 else listenersFor T w).map
          (fun l => Call.mk l [event, id, a, b])) ∧
    (ipcListener textToNumber event T [id, a, b] w).thrown =
      (if T = "error" then some .unhandledError
       else if T = "seek" ∧ (toNumber textToNumber a).isFinite = false ∧
          listenersFor T w ≠ [] then some .typeError
       else none) := by
  by_cases hT : T = "error"
  · subst hT
    have he := listenersFor_error w
    simp [ipcListener, emit, he]
  · have hrun : ipcListener textToNumber event T [id, a, b] w =
        runListeners textToNumber [event, id, a, b] (listenersFor T w) w := by
      simp [ipcListener, emit, hT]
    rw [hrun]
    by_cases hbad : T = "seek" ∧ (toNumber textToNumber a).isFinite = false
    · obtain ⟨hseek, hfin⟩ := hbad
      subst hseek
      cases hl : listenersFor "seek" w with
      | nil => simp [runListeners]
      | cons l rest =>
        have hmem : l ∈ listenersFor "seek" w := by simp [hl]
        obtain ⟨el, hel⟩ := Handler.type_seek l.body (mem_listenersFor _ w l hmem)
        have herr := Handler.run_seek_error textToNumber el [event, id, a, b]
          { w with calls := w.calls ++ [⟨l, [event, id, a, b]⟩] } hfin
        simp [runListeners, hel, herr, hfin]
    · have hall := runListeners_all textToNumber [event, id, a, b] (listenersFor T w) w
        (fun l hl el hel => by
          have ht := mem_listenersFor T w l hl
          rw [hel] at ht
          by_contra hfin
          exact hbad ⟨ht.symm, by simpa [argAt] using hfin⟩)
      rw [hall.1, hall.2, if_neg hbad, if_neg hT, if_neg (fun h3 => hbad ⟨h3.1, h3.2.1⟩)]
      exact ⟨rfl, rfl⟩

/-- An instance of amended C2: with two `seek` subscribers, the message
`seek(7, 5, undefined)` throws nothing and invokes both, the function object
9 before the function object 19, each with the event, 7, 5 and
`undefined`. -/
theorem ipcListener_invokes_in_order_witness :
    (ipcListener (fun _ => .nan) (.obj []) "seek" [.num 7, .num 5, .undefined]
      twiceBound).thrown = none ∧
    (ipcListener (fun _ => .nan) (.obj []) "seek" [.num 7, .num 5, .undefined]
      twiceBound).world.calls =
        [⟨⟨9, .seek 0⟩, [.obj [], .num 7, .num 5, .undefined]⟩,
         ⟨⟨19, .seek 0⟩, [.obj [], .num 7, .num 5, .undefined]⟩] :=
  have h := ipcListener_invokes_in_order (fun _ => .nan) twiceBound (.obj []) "seek"
    (.num 7) (.num 5) .undefined
  ⟨h.2.trans rfl, h.1.trans rfl⟩

/-- C4, as the claim states it, fails: nothing is ever subscribed for the
type `'error'`, and a message of that type makes the emitter throw. -/
theorem error_type_throws :
    listenersFor "error" init = [] ∧
    (ipcListener (fun _ => .nan) (.obj []) "error" [.num 1] init).thrown =
      some .unhandledError := by
  refine ⟨rfl, rfl⟩

/-- C4, amended. A message whose type has no subscriber leaves the whole
state as it was (no subscriber invoked, nothing sent, subscriptions
unchanged); it throws nothing when the type is not `'error'`, and the
emitter's unhandled-error exception when it is. -/
theorem unsubscribed_type_is_dropped (textToNumber : Val → Num) (w : World)
    (event : Val) (T : String) (rest : List Val) (hnone : listenersFor T w = []) :
    ipcListener textToNumber event T rest w =
      ⟨w, if T = "error" then some .unhandledError else none⟩ := by
  by_cases hT : T = "error"
  · subst hT
    simp [ipcListener, emit, hnone]
  · simp [ipcListener, emit, hnone, hT, runListeners]

/-- An instance of amended C4: after binding, a message of the unknown type
`volume` changes nothing and throws nothing. -/
theorem unsubscribed_type_is_dropped_witness :
    listenersFor "volume" bound = [] ∧
    ipcListener (fun _ => .nan) (.obj []) "volume" [.num 1, .num 2] bound = ⟨bound, none⟩ :=
  ⟨by decide,
    (unsubscribed_type_is_dropped (fun _ => .nan) bound (.obj []) "volume" [.num 1, .num 2]
      (by decide)).trans rfl⟩

/-! ## The playback event binder -/

/-- C7 on the code: after binding, the message `seek(7, 45000000)` sets the
position of the audio element to 45000000, the number as it was received,
and not to 45000000 / 1000000, which is 45; it sends nothing and throws
nothing. -/
theorem seek_assigns_position_unscaled :
    ((ipcListener (fun _ => .nan) (.obj []) "seek" [.num 7, .num 45000000]
      bound).world.audio 0).currentTime = 45000000 ∧
    ((ipcListener (fun _ => .nan) (.obj []) "seek" [.num 7, .num 45000000]
      bound).world.audio 0).currentTime ≠ 45000000 / 1000000 ∧
    (45000000 : Num) / 1000000 = 45 ∧
    (ipcListener (fun _ => .nan) (.obj []) "seek" [.num 7, .num 45000000]
      bound).world.sent = bound.sent ∧
    (ipcListener (fun _ => .nan) (.obj []) "seek" [.num 7, .num 45000000]
      bound).thrown = none := by
  refine ⟨by decide, by decide, by decide, rfl, rfl⟩

/-- C8, as the claim states it, fails: after the binder ran twice there are
two `getPosition` subscribers, and the message `getPosition(7)` at position
12.3 sends two replies, not exactly one. -/
theorem getPosition_replies_twice_when_bound_twice :
    (ipcListener (fun _ => .nan) (.obj []) "getPosition" [.num 7]
        (atPosition 0 (Num.ofDecimal 123 1) twiceBound)).world.sent =
      (atPosition 0 (Num.ofDecimal 123 1) twiceBound).sent ++
        [⟨"MPRIS:IPC", [.str "getPosition", .num 7, .num 12300000]⟩,
         ⟨"MPRIS:IPC", [.str "getPosition", .num 7, .num 12300000]⟩] := by
  rfl

/-- C8, amended. After `bindEventListener(audioEl)` in any state, with the
element at any position `t` seconds, the message `getPosition(id)` sends one
reply for each `getPosition` subscriber, in subscription order: first one
for each earlier binding, with the position of the element of that binding,
then one for this binding, so exactly one when there was no earlier binding.
Each reply has the tag `MPRIS:IPC`, the type `getPosition`, the same `id`,
and the position times 1000000 as the engine computes the product (rounded
to the nearest double); the reply of this binding carries `t * 1000000`. No
element moves and nothing is thrown. -/
theorem getPosition_replies_per_binding (textToNumber : Val → Num) (w : World) (el : Nat)
    (event id : Val) (t : Num) :
    (ipcListener textToNumber event "getPosition" [id]
        (atPosition el t (bindEventListener (some el) w))).world.sent =
      (atPosition el t (bindEventListener (some el) w)).sent ++
        (positionElements w).map
          (positionReply id (atPosition el t (bindEventListener (some el) w)).audio) ++
        [⟨"MPRIS:IPC", [.str "getPosition", id, .num (t * 1000000)]⟩] ∧
    (positionElements w = [] →
      (ipcListener textToNumber event "getPosition" [id]
          (atPosition el t (bindEventListener (some el) w))).world.sent =
        (atPosition el t (bindEventListener (some el) w)).sent ++
          [⟨"MPRIS:IPC", [.str "getPosition", id, .num (t * 1000000)]⟩]) ∧
    (ipcListener textToNumber event "getPosition" [id]
        (atPosition el t (bindEventListener (some el) w))).world.audio =
      (atPosition el t (bindEventListener (some el) w)).audio ∧
    ((ipcListener textToNumber event "getPosition" [id]
        (atPosition el t (bindEventListener (some el) w))).world.audio el).currentTime = t ∧
    (ipcListener textToNumber event "getPosition" [id]
        (atPosition el t (bindEventListener (some el) w))).thrown = none := by
  have hrun : ipcListener textToNumber event "getPosition" [id]
      (atPosition el t (bindEventListener (some el) w)) =
      runListeners textToNumber [event, id]
        (listenersFor "getPosition" (atPosition el t (bindEventListener (some el) w)))
        (atPosition el t (bindEventListener (some el) w)) := by
    simp [ipcListener, emit]
  have hg := runListeners_getPosition textToNumber [event, id]
    (listenersFor "getPosition" (atPosition el t (bindEventListener (some el) w)))
    (atPosition el t (bindEventListener (some el) w))
    (fun l hl => mem_listenersFor _ _ l hl)
  have ha : argAt [event, id] 1 = id := rfl
  rw [← positionElements_eq, ha] at hg
  have hpe : positionElements (atPosition el t (bindEventListener (some el) w)) =
      positionElements w ++ [el] := by
    simp [positionElements, atPosition, (bindEventListener_some el w).1,
      List.filterMap_append, Handler.positionElement]
  have hreply : positionReply id (atPosition el t (bindEventListener (some el) w)).audio el =
      ⟨"MPRIS:IPC", [.str "getPosition", id, .num (t * 1000000)]⟩ := by
    simp [positionReply, atPosition]
  have hsent : (ipcListener textToNumber event "getPosition" [id]
        (atPosition el t (bindEventListener (some el) w))).world.sent =
      (atPosition el t (bindEventListener (some el) w)).sent ++
        (positionElements w).map
          (positionReply id (atPosition el t (bindEventListener (some el) w)).audio) ++
        [⟨"MPRIS:IPC", [.str "getPosition", id, .num (t * 1000000)]⟩] := by
    rw [hrun, hg.1, hpe, List.map_append, List.map_singleton, hreply, List.append_assoc]
  refine ⟨hsent, fun hnone => ?_, ?_, ?_, ?_⟩
  · rw [hsent, hnone]
    simp
  · rw [hrun]; exact hg.2.1
  · rw [hrun, hg.2.1]
    simp [atPosition]
  · rw [hrun]; exact hg.2.2

/-- The example of C8: after one binding, `getPosition(7)` at position 12.3
sends the one reply `('MPRIS:IPC', 'getPosition', 7, 12300000)` after the
`renderer-ready` of the binding. -/
theorem getPosition_replies_per_binding_witness :
    positionElements init = [] ∧
    (ipcListener (fun _ => .nan) (.obj []) "getPosition" [.num 7]
        (atPosition 0 (Num.ofDecimal 123 1) (bindEventListener (some 0) init))).world.sent =
      [⟨"MPRIS:IPC", [.str "renderer-ready"]⟩,
       ⟨"MPRIS:IPC", [.str "getPosition", .num 7, .num 12300000]⟩] :=
  ⟨rfl, ((getPosition_replies_per_binding (fun _ => .nan) init 0 (.obj []) (.num 7)
    (Num.ofDecimal 123 1)).2.1 rfl).trans rfl⟩

/-- C9 on the code: after binding, with the element at 12.3 seconds, the
native `seeked` event sends one `seeked` command, and its argument is 12.3,
the position in seconds, not 12300000. -/
theorem seeked_sends_position_unscaled :
    (dispatchEvent 0 "seeked" (atPosition 0 (Num.ofDecimal 123 1) bound)).sent =
      [⟨"MPRIS:IPC", [.str "renderer-ready"]⟩,
       ⟨"MPRIS:IPC", [.str "seeked", .num (Num.ofDecimal 123 1)]⟩] ∧
    Num.ofDecimal 123 1 ≠ Num.ofDecimal 123 1 * 1000000 ∧
    Num.ofDecimal 123 1 * 1000000 = 12300000 := by
  refine ⟨rfl, by decide, by decide⟩

/-- C10, as the claim states it, fails: after the binder ran twice on the
element, it holds two `loadedmetadata` listeners, and the native event at
duration 180.5 sends two `patchMetadata` commands, not exactly one. -/
theorem loadedmetadata_patches_twice_when_bound_twice :
    (dispatchEvent 0 "loadedmetadata"
        (withDuration 0 (Num.ofDecimal 1805 1) twiceBound)).sent =
      (withDuration 0 (Num.ofDecimal 1805 1) twiceBound).sent ++
        [⟨"MPRIS:IPC", [.str "patchMetadata", .obj [("mpris:length", .num 180500000)]]⟩,
         ⟨"MPRIS:IPC", [.str "patchMetadata", .obj [("mpris:length", .num 180500000)]]⟩] := by
  rfl

/-- C10, amended. After `bindEventListener(audioEl)` in a state whose cache
is in its invariant, with the element at any duration `d` seconds, the
native `loadedmetadata` event sends one `patchMetadata` command for each
`loadedmetadata` listener the element holds: one for each earlier binding of
this element and one for this binding, so exactly one when the element was
not bound before. Each command has the tag `MPRIS:IPC`, the type
`patchMetadata` and one argument, the dictionary with the single key
`mpris:length` at `d * 1000000` as the engine computes the product (rounded
to the nearest double; `NaN` for the duration `NaN`). -/
theorem loadedmetadata_patches_length (w : World) (hw : CacheOk w) (el : Nat) (d : Num) :
    (dispatchEvent el "loadedmetadata" (withDuration el d (bindEventListener (some el) w))).sent =
      (withDuration el d (bindEventListener (some el) w)).sent ++
        List.replicate ((domListenersFor el "loadedmetadata" w).length + 1)
          ⟨"MPRIS:IPC", [.str "patchMetadata", .obj [("mpris:length", .num (d * 1000000))]]⟩ ∧
    (domListenersFor el "loadedmetadata" w = [] →
      (dispatchEvent el "loadedmetadata"
          (withDuration el d (bindEventListener (some el) w))).sent =
        (withDuration el d (bindEventListener (some el) w)).sent ++
          [⟨"MPRIS:IPC", [.str "patchMetadata", .obj [("mpris:length", .num (d * 1000000))]]⟩]) := by
  have hl : domListenersFor el "loadedmetadata" (withDuration el d (bindEventListener (some el) w)) =
      domListenersFor el "loadedmetadata" w ++ [⟨w.nextRef + 3, .loadedmetadata⟩] := by
    simp only [domListenersFor, withDuration, Function.update_same,
      (bindEventListener_some el w).2.1, List.filter_append]
    congr 1
  have hok : CacheOk (withDuration el d (bindEventListener (some el) w)) :=
    CacheOk_of_methodMap w _ hw (bindEventListener_some el w).2.2.2.1
  have hfold := foldl_loadedmetadata el
    (domListenersFor el "loadedmetadata" (withDuration el d (bindEventListener (some el) w)))
    (withDuration el d (bindEventListener (some el) w)) hok
    (fun l hl2 => DomBody.type_loadedmetadata l.body (by
      simp only [domListenersFor, List.mem_filter, beq_iff_eq] at hl2
      exact hl2.2))
  have hd : ((withDuration el d (bindEventListener (some el) w)).audio el).duration = d := by
    simp [withDuration]
  have hsent : (dispatchEvent el "loadedmetadata"
        (withDuration el d (bindEventListener (some el) w))).sent =
      (withDuration el d (bindEventListener (some el) w)).sent ++
        List.replicate ((domListenersFor el "loadedmetadata" w).length + 1)
          ⟨"MPRIS:IPC", [.str "patchMetadata", .obj [("mpris:length", .num (d * 1000000))]]⟩ := by
    rw [dispatchEvent, hfold, hd, hl]
    simp [lengthPatch]
  refine ⟨hsent, fun hnone => ?_⟩
  rw [hsent, hnone]
  rfl

/-- The example of C10: after one binding, a duration of 180.5 seconds
yields the one command `patchMetadata` with `mpris:length` 180500000. -/
theorem loadedmetadata_patches_length_witness :
    CacheOk init ∧ domListenersFor 0 "loadedmetadata" init = [] ∧
    (dispatchEvent 0 "loadedmetadata"
        (withDuration 0 (Num.ofDecimal 1805 1) (bindEventListener (some 0) init))).sent =
      [⟨"MPRIS:IPC", [.str "renderer-ready"]⟩,
       ⟨"MPRIS:IPC", [.str "patchMetadata", .obj [("mpris:length", .num 180500000)]]⟩] :=
  ⟨CacheOk_init, rfl,
    ((loadedmetadata_patches_length init CacheOk_init 0 (Num.ofDecimal 1805 1)).2 rfl).trans rfl⟩

end Mpris
